import Mathlib

/-!
Verification of the contact-state diffing and notification pass
(src/collision/contact_reporting.rs, function report_contacts) of the
avian physics engine.

The pass iterates once over the collision registry. For each pair entry
it inspects the two booleans during_current_frame and
during_previous_frame of the contact record, emits Collision (ongoing),
CollisionStarted and CollisionEnded events, and updates the per-entity
CollidingEntities sets, skipping the update for entities that can no
longer be resolved. At the end it overwrites the collision_events
diagnostics slot with the elapsed duration of the pass.
-/

namespace ContactReporting

/-- Entity identifiers are opaque handles; modelled as natural numbers. -/
abbrev Entity := Nat

/-- Contact record attached to a registry pair. The struct itself lives
outside the extracted source; modelled from the spec: it carries at least
the two frame flags, the two entity identifiers and an opaque geometry
payload that the pass never inspects. -/
structure Contacts where
  entity1 : Entity
  entity2 : Entity
  during_current_frame : Bool
  during_previous_frame : Bool
  payload : Nat
deriving DecidableEq, Repr

/-- The three collision event kinds written by the pass, in emission
order. Collision carries a clone of the full contact record; the other
two carry only the two entity identifiers. -/
inductive CollisionEvent where
  | collision (contacts : Contacts)
  | started (entity1 entity2 : Entity)
  | ended (entity1 entity2 : Entity)
deriving DecidableEq, Repr

/-- The CollidingEntities component store: an entity is resolvable
exactly when it has an entry, whose value is its set of colliding
entities. -/
abbrev Colliders := List (Entity × Finset Entity)

/-- The collision registry: unordered entity pair keys with their
contact records, iterated in list order. -/
abbrev Registry := List ((Entity × Entity) × Contacts)

/-- Lookup of the CollidingEntities set of an entity, mirroring
Query.get_mut which fails for despawned entities. -/
def getColliding : Colliders → Entity → Option (Finset Entity)
  | [], _ => none
  | p :: m, e => if p.1 = e then some p.2 else getColliding m e

/-- Replace the CollidingEntities set of an entity, leaving every other
entry untouched. -/
def setColliding : Colliders → Entity → Finset Entity → Colliders
  | [], _, _ => []
  | p :: m, e, s => if p.1 = e then (e, s) :: setColliding m e s else p :: setColliding m e s

/-- Mutation of the CollidingEntities set of an entity guarded by the
fallible lookup: if the entity is unresolvable the mutation is silently
skipped, mirroring the if-let around Query.get_mut. -/
def mutateColliding (m : Colliders) (e : Entity) (f : Finset Entity → Finset Entity) :
    Colliders :=
  match getColliding m e with
  | some s => setColliding m e (f s)
  | none => m

/-- The colliding_entities.insert call guarded by the fallible lookup. -/
def insertColliding (m : Colliders) (e target : Entity) : Colliders :=
  mutateColliding m e (insert target)

/-- The colliding_entities.remove call guarded by the fallible lookup. -/
def removeColliding (m : Colliders) (e target : Entity) : Colliders :=
  mutateColliding m e (fun s => s.erase target)

/-- An entity is resolvable when its CollidingEntities entry exists. -/
def resolvable (m : Colliders) (e : Entity) : Bool :=
  (getColliding m e).isSome

/-- Membership of target in the CollidingEntities set of an entity
(false when the entity is unresolvable). -/
def memColl (m : Colliders) (e target : Entity) : Bool :=
  match getColliding m e with
  | some s => decide (target ∈ s)
  | none => false

/-- Loop body of report_contacts for one registry entry: the state is
the colliders store together with the events emitted so far, in
emission order. -/
def reportStep (st : Colliders × List CollisionEvent) (entry : (Entity × Entity) × Contacts) :
    Colliders × List CollisionEvent :=
  let e1 := entry.1.1
  let e2 := entry.1.2
  let c := entry.2
  let m := st.1
  let evs := st.2
  let st1 :=
    if c.during_current_frame then
      let evs := evs ++ [CollisionEvent.collision c]
      if !c.during_previous_frame then
        let evs := evs ++ [CollisionEvent.started e1 e2]
        let m := insertColliding m e1 e2
        let m := insertColliding m e2 e1
        (m, evs)
      else (m, evs)
    else (m, evs)
  if !c.during_current_frame && c.during_previous_frame then
    let evs := st1.2 ++ [CollisionEvent.ended e1 e2]
    let m := removeColliding st1.1 e1 e2
    let m := removeColliding m e2 e1
    (m, evs)
  else st1

/-- The report_contacts pass without the timing side effect: a single
linear fold over the registry. -/
def report_contacts (colliders : Colliders) (collisions : Registry) :
    Colliders × List CollisionEvent :=
  collisions.foldl reportStep (colliders, [])

/-- The diagnostics resource holding the timing slot for this pass. -/
structure CollisionDiagnostics where
  collision_events : Nat
deriving DecidableEq, Repr

/-- Full observable outcome of one invocation of report_contacts,
including the diagnostics slot and the history of writes to it. -/
structure ReportResult where
  colliders : Colliders
  events : List CollisionEvent
  diagnostics : CollisionDiagnostics
  diagnostic_writes : List Nat

/-- The full report_contacts pass. The elapsed wall-clock duration
measured by Instant.now and start.elapsed is opaque to the logic and is
passed in as a parameter; the list diagnostic_writes records every
assignment performed on the diagnostics slot during the pass. -/
def report_contacts_timed (colliders : Colliders) (collisions : Registry)
    (diagnostics : CollisionDiagnostics) (elapsed : Nat) : ReportResult :=
  let st := report_contacts colliders collisions
  { colliders := st.1
    events := st.2
    diagnostics := { diagnostics with collision_events := elapsed }
    diagnostic_writes := [elapsed] }

/-- Events emitted for a single registry entry, in emission order. -/
def entryEvents (entry : (Entity × Entity) × Contacts) : List CollisionEvent :=
  let e1 := entry.1.1
  let e2 := entry.1.2
  let c := entry.2
  (if c.during_current_frame then
    CollisionEvent.collision c ::
      (if !c.during_previous_frame then [CollisionEvent.started e1 e2] else [])
   else []) ++
  (if !c.during_current_frame && c.during_previous_frame then
    [CollisionEvent.ended e1 e2] else [])

/-- CollidingEntities mutations performed for a single registry entry. -/
def applyEntry (m : Colliders) (entry : (Entity × Entity) × Contacts) : Colliders :=
  let e1 := entry.1.1
  let e2 := entry.1.2
  let c := entry.2
  if c.during_current_frame then
    if !c.during_previous_frame then
      insertColliding (insertColliding m e1 e2) e2 e1
    else m
  else if c.during_previous_frame then
    removeColliding (removeColliding m e1 e2) e2 e1
  else m

/-- Final colliders store after a pass over the registry. -/
def passMap (m : Colliders) (L : Registry) : Colliders :=
  L.foldl applyEntry m

/-- Full event trace of a pass over the registry, in emission order. -/
def eventTrace (L : Registry) : List CollisionEvent :=
  L.flatMap entryEvents

/-- Two ordered pairs denote the same unordered pair key. -/
def samePair (p q : Entity × Entity) : Prop :=
  p = q ∨ p = (q.2, q.1)

instance (p q : Entity × Entity) : Decidable (samePair p q) := by
  unfold samePair; infer_instance

/-- The registry holds at most one record per unordered pair key. -/
def uniquePairs (L : Registry) : Prop :=
  L.Pairwise fun x y => ¬ samePair x.1 y.1

/-- Every contact record carries the entity identifiers of its own
registry key. -/
def wellFormed (L : Registry) : Prop :=
  ∀ x ∈ L, x.2.entity1 = x.1.1 ∧ x.2.entity2 = x.1.2

instance (L : Registry) : Decidable (uniquePairs L) := by
  unfold uniquePairs; exact List.instDecidablePairwise L

instance (L : Registry) : Decidable (wellFormed L) := by
  unfold wellFormed; infer_instance

/-- The ordered entity pair an event is about. -/
def eventPair : CollisionEvent → Entity × Entity
  | .collision c => (c.entity1, c.entity2)
  | .started e1 e2 => (e1, e2)
  | .ended e1 e2 => (e1, e2)

/-- The subtrace of events concerning one unordered pair, in emission
order. -/
def eventsForPair (p : Entity × Entity) (evs : List CollisionEvent) : List CollisionEvent :=
  evs.filter fun ev => decide (samePair (eventPair ev) p)

/-- Recognizer for ongoing Collision events. -/
def isOngoingEvent : CollisionEvent → Bool
  | .collision _ => true
  | _ => false

/-- Recognizer for CollisionStarted events. -/
def isStartedEvent : CollisionEvent → Bool
  | .started _ _ => true
  | _ => false

/-- Recognizer for CollisionEnded events. -/
def isEndedEvent : CollisionEvent → Bool
  | .ended _ _ => true
  | _ => false

/-- Number of ongoing Collision events emitted for one unordered pair. -/
def countOngoing (p : Entity × Entity) (evs : List CollisionEvent) : Nat :=
  ((eventsForPair p evs).filter isOngoingEvent).length

/-- Number of CollisionStarted events emitted for one unordered pair. -/
def countStarted (p : Entity × Entity) (evs : List CollisionEvent) : Nat :=
  ((eventsForPair p evs).filter isStartedEvent).length

/-- Number of CollisionEnded events emitted for one unordered pair. -/
def countEnded (p : Entity × Entity) (evs : List CollisionEvent) : Nat :=
  ((eventsForPair p evs).filter isEndedEvent).length

/-! Basic properties of unordered pair keys. -/

theorem samePair_refl (p : Entity × Entity) : samePair p p :=
  Or.inl rfl

theorem samePair_symm {p q : Entity × Entity} (h : samePair p q) : samePair q p := by
  rcases p with ⟨p1, p2⟩
  rcases q with ⟨q1, q2⟩
  rcases h with h | h <;> cases h
  · exact Or.inl rfl
  · exact Or.inr rfl

theorem samePair_swap_right {p : Entity × Entity} {a b : Entity}
    (h : samePair p (b, a)) : samePair p (a, b) := by
  rcases h with h | h
  · exact Or.inr h
  · exact Or.inl h

/-! Decomposition of the loop body: the events appended by one entry
depend only on the entry, and the colliders mutation is applyEntry. -/

theorem reportStep_eq (m : Colliders) (evs : List CollisionEvent)
    (entry : (Entity × Entity) × Contacts) :
    reportStep (m, evs) entry = (applyEntry m entry, evs ++ entryEvents entry) := by
  rcases entry with ⟨⟨e1, e2⟩, c⟩
  rcases c with ⟨a, b, cur, prev, p⟩
  cases cur <;> cases prev <;> simp [reportStep, applyEntry, entryEvents]

theorem foldl_reportStep (L : Registry) (m : Colliders) (evs : List CollisionEvent) :
    L.foldl reportStep (m, evs) = (passMap m L, evs ++ eventTrace L) := by
  induction L generalizing m evs with
  | nil => simp [passMap, eventTrace]
  | cons x L ih =>
    rw [List.foldl_cons, reportStep_eq, ih]
    simp [passMap, eventTrace]

theorem report_contacts_eq (m : Colliders) (L : Registry) :
    report_contacts m L = (passMap m L, eventTrace L) := by
  rw [report_contacts, foldl_reportStep]
  simp

/-! Properties of lookup and update on the colliders store. -/

theorem getColliding_setColliding (m : Colliders) (e e' : Entity) (s : Finset Entity) :
    getColliding (setColliding m e s) e' =
      if e' = e then (getColliding m e).map (fun _ => s) else getColliding m e' := by
  induction m with
  | nil =>
    simp only [getColliding, setColliding]
    split <;> rfl
  | cons p m ih =>
    by_cases h1 : p.1 = e
    · by_cases h2 : e' = e
      · subst h2
        simp [setColliding, getColliding, h1, ih]
      · have h3 : ¬ p.1 = e' := fun hh => h2 (hh.symm.trans h1)
        have h4 : ¬ e = e' := fun hh => h2 hh.symm
        simp [setColliding, getColliding, h1, h2, h3, h4, ih]
    · by_cases h2 : e' = e
      · subst h2
        have h3 : ¬ p.1 = e' := h1
        simp [setColliding, getColliding, h1, h3, ih]
      · simp [setColliding, getColliding, h1, h2, ih]

theorem setColliding_setColliding_same (m : Colliders) (e : Entity) (s t : Finset Entity) :
    setColliding (setColliding m e s) e t = setColliding m e t := by
  induction m with
  | nil => rfl
  | cons p m ih =>
    simp only [setColliding]
    by_cases h : p.1 = e <;> simp [setColliding, h, ih]

theorem setColliding_setColliding_ne (m : Colliders) {a b : Entity} (h : a ≠ b)
    (s t : Finset Entity) :
    setColliding (setColliding m a s) b t = setColliding (setColliding m b t) a s := by
  induction m with
  | nil => rfl
  | cons p m ih =>
    have hab : ¬ a = b := h
    have hba : ¬ b = a := fun hh => h hh.symm
    by_cases h1 : p.1 = a
    · have h2 : ¬ p.1 = b := fun hh => h (h1.symm.trans hh)
      simp [setColliding, h1, h2, hab, hba, ih]
    · by_cases h2 : p.1 = b
      · simp [setColliding, h1, h2, hab, hba, ih]
      · simp [setColliding, h1, h2, ih]

theorem resolvable_setColliding (m : Colliders) (a e : Entity) (s : Finset Entity) :
    resolvable (setColliding m a s) e = resolvable m e := by
  unfold resolvable
  rw [getColliding_setColliding]
  by_cases h : e = a
  · subst h
    cases getColliding m e <;> simp
  · simp [h]

theorem resolvable_mutateColliding (m : Colliders) (a e : Entity)
    (f : Finset Entity → Finset Entity) :
    resolvable (mutateColliding m a f) e = resolvable m e := by
  unfold mutateColliding
  cases h : getColliding m a with
  | none => rfl
  | some s => exact resolvable_setColliding m a e (f s)

theorem memColl_setColliding (m : Colliders) (a e t : Entity) (s : Finset Entity) :
    memColl (setColliding m a s) e t =
      if e = a then resolvable m a && decide (t ∈ s) else memColl m e t := by
  unfold memColl resolvable
  rw [getColliding_setColliding]
  by_cases h : e = a
  · subst h
    cases getColliding m e <;> simp
  · simp [h]

theorem memColl_insertColliding (m : Colliders) (a b e t : Entity) :
    memColl (insertColliding m a b) e t =
      (memColl m e t || (decide (e = a) && decide (t = b) && resolvable m a)) := by
  unfold insertColliding mutateColliding
  cases h : getColliding m a with
  | none =>
    have hres : resolvable m a = false := by simp [resolvable, h]
    simp [hres]
  | some s =>
    have hres : resolvable m a = true := by simp [resolvable, h]
    rw [memColl_setColliding]
    by_cases he : e = a
    · subst he
      have hm : memColl m e t = decide (t ∈ s) := by simp [memColl, h]
      simp only [if_pos rfl, hres, hm, Finset.mem_insert, Bool.true_and, Bool.and_true]
      cases hb : decide (t = b) <;> cases hs : decide (t ∈ s) <;>
        simp_all [decide_eq_true_eq, decide_eq_false_iff_not]
    · simp [he, hres]

theorem memColl_removeColliding (m : Colliders) (a b e t : Entity) :
    memColl (removeColliding m a b) e t =
      (memColl m e t && !(decide (e = a) && decide (t = b))) := by
  unfold removeColliding mutateColliding
  cases h : getColliding m a with
  | none =>
    have hm : memColl m a t = false := by simp [memColl, h]
    by_cases he : e = a
    · subst he
      simp [hm]
    · simp [he]
  | some s =>
    have hres : resolvable m a = true := by simp [resolvable, h]
    rw [memColl_setColliding]
    by_cases he : e = a
    · subst he
      have hm : memColl m e t = decide (t ∈ s) := by simp [memColl, h]
      simp only [if_pos rfl, hres, hm, Finset.mem_erase, Bool.true_and]
      cases hb : decide (t = b) <;> cases hs : decide (t ∈ s) <;>
        simp_all [decide_eq_true_eq, decide_eq_false_iff_not]
    · simp [he]

/-! Characterization of one entry of the pass on the colliders store. -/

theorem applyEntry_of_eq_flags (m : Colliders) (entry : (Entity × Entity) × Contacts)
    (h : entry.2.during_current_frame = entry.2.during_previous_frame) :
    applyEntry m entry = m := by
  rcases entry with ⟨⟨e1, e2⟩, c⟩
  cases hc : c.during_current_frame <;>
    simp_all [applyEntry]

theorem resolvable_applyEntry (m : Colliders) (entry : (Entity × Entity) × Contacts)
    (e : Entity) :
    resolvable (applyEntry m entry) e = resolvable m e := by
  rcases entry with ⟨⟨e1, e2⟩, c⟩
  cases hcur : c.during_current_frame <;> cases hprev : c.during_previous_frame <;>
    simp [applyEntry, hcur, hprev, insertColliding, removeColliding,
      resolvable_mutateColliding]

theorem memColl_applyEntry_started (m : Colliders) (e1 e2 : Entity) (c : Contacts)
    (e t : Entity) (hcur : c.during_current_frame = true)
    (hprev : c.during_previous_frame = false) :
    memColl (applyEntry m ((e1, e2), c)) e t =
      ((memColl m e t || (decide (e = e1) && decide (t = e2) && resolvable m e1))
        || (decide (e = e2) && decide (t = e1) && resolvable m e2)) := by
  have hr : resolvable (insertColliding m e1 e2) e2 = resolvable m e2 := by
    unfold insertColliding
    exact resolvable_mutateColliding m e1 e2 (insert e2)
  simp [applyEntry, hcur, hprev, memColl_insertColliding, hr]

theorem memColl_applyEntry_ended (m : Colliders) (e1 e2 : Entity) (c : Contacts)
    (e t : Entity) (hcur : c.during_current_frame = false)
    (hprev : c.during_previous_frame = true) :
    memColl (applyEntry m ((e1, e2), c)) e t =
      ((memColl m e t && !(decide (e = e1) && decide (t = e2)))
        && !(decide (e = e2) && decide (t = e1))) := by
  simp [applyEntry, hcur, hprev, memColl_removeColliding]

theorem memColl_applyEntry_frame (m : Colliders) (entry : (Entity × Entity) × Contacts)
    (e t : Entity) (h : ¬ samePair entry.1 (e, t)) :
    memColl (applyEntry m entry) e t = memColl m e t := by
  rcases entry with ⟨⟨e1, e2⟩, c⟩
  have h1 : ¬ (e = e1 ∧ t = e2) := by
    rintro ⟨rfl, rfl⟩
    exact h (Or.inl rfl)
  have h2 : ¬ (e = e2 ∧ t = e1) := by
    rintro ⟨rfl, rfl⟩
    exact h (Or.inr rfl)
  have b1 : (decide (e = e1) && decide (t = e2)) = false := by
    cases hd1 : decide (e = e1) <;> cases hd2 : decide (t = e2) <;>
      simp_all [decide_eq_true_eq]
  have b2 : (decide (e = e2) && decide (t = e1)) = false := by
    cases hd1 : decide (e = e2) <;> cases hd2 : decide (t = e1) <;>
      simp_all [decide_eq_true_eq]
  cases hcur : c.during_current_frame <;> cases hprev : c.during_previous_frame
  · rw [applyEntry_of_eq_flags m _ (by simp [hcur, hprev])]
  · rw [memColl_applyEntry_ended m e1 e2 c e t hcur hprev, b1, b2]
    simp
  · rw [memColl_applyEntry_started m e1 e2 c e t hcur hprev]
    cases hd1 : decide (e = e1) <;> cases hd2 : decide (t = e2) <;>
      cases hd3 : decide (e = e2) <;> cases hd4 : decide (t = e1) <;>
        simp_all [decide_eq_true_eq]
  · rw [applyEntry_of_eq_flags m _ (by simp [hcur, hprev])]

/-! Pass-level preservation and frame lemmas. -/

theorem passMap_append (m : Colliders) (L1 L2 : Registry) :
    passMap m (L1 ++ L2) = passMap (passMap m L1) L2 :=
  List.foldl_append applyEntry m L1 L2

theorem passMap_cons (m : Colliders) (x : (Entity × Entity) × Contacts) (L : Registry) :
    passMap m (x :: L) = passMap (applyEntry m x) L :=
  rfl

theorem resolvable_passMap (m : Colliders) (L : Registry) (e : Entity) :
    resolvable (passMap m L) e = resolvable m e := by
  induction L generalizing m with
  | nil => rfl
  | cons x L ih => rw [passMap_cons, ih, resolvable_applyEntry]

theorem memColl_passMap_frame (m : Colliders) (L : Registry) (e t : Entity)
    (h : ∀ x ∈ L, samePair x.1 (e, t) →
      x.2.during_current_frame = x.2.during_previous_frame) :
    memColl (passMap m L) e t = memColl m e t := by
  induction L generalizing m with
  | nil => rfl
  | cons x L ih =>
    rw [passMap_cons, ih _ fun y hy => h y (List.mem_cons_of_mem x hy)]
    by_cases hx : samePair x.1 (e, t)
    · rw [applyEntry_of_eq_flags m x (h x (List.mem_cons_self x L) hx)]
    · exact memColl_applyEntry_frame m x e t hx

theorem getColliding_applyEntry_absent (m : Colliders)
    (entry : (Entity × Entity) × Contacts) (e : Entity)
    (h1 : e ≠ entry.1.1) (h2 : e ≠ entry.1.2) :
    getColliding (applyEntry m entry) e = getColliding m e := by
  rcases entry with ⟨⟨e1, e2⟩, c⟩
  have key : ∀ (m' : Colliders) (a : Entity) (f : Finset Entity → Finset Entity), e ≠ a →
      getColliding (mutateColliding m' a f) e = getColliding m' e := by
    intro m' a f ha
    unfold mutateColliding
    cases hg : getColliding m' a with
    | none => rfl
    | some s => rw [getColliding_setColliding, if_neg ha]
  cases hcur : c.during_current_frame <;> cases hprev : c.during_previous_frame <;>
    simp_all [applyEntry, insertColliding, removeColliding, key]

theorem getColliding_passMap_absent (m : Colliders) (L : Registry) (e : Entity)
    (h : ∀ x ∈ L, e ≠ x.1.1 ∧ e ≠ x.1.2) :
    getColliding (passMap m L) e = getColliding m e := by
  induction L generalizing m with
  | nil => rfl
  | cons x L ih =>
    rw [passMap_cons, ih _ fun y hy => h y (List.mem_cons_of_mem x hy)]
    exact getColliding_applyEntry_absent m x e
      (h x (List.mem_cons_self x L)).1 (h x (List.mem_cons_self x L)).2

/-! Helper facts about registries with unique unordered pair keys. -/

theorem uniquePairs_all (L : Registry) (hu : uniquePairs L)
    {x : (Entity × Entity) × Contacts} (hx : x ∈ L)
    {y : (Entity × Entity) × Contacts} (hy : y ∈ L) :
    x = y ∨ ¬ samePair x.1 y.1 := by
  have hsym : Symmetric fun a b : (Entity × Entity) × Contacts =>
      a = b ∨ ¬ samePair a.1 b.1 := by
    intro a b hab
    rcases hab with h | h
    · exact Or.inl h.symm
    · exact Or.inr fun hs => h (samePair_symm hs)
  have hrefl : ∀ z ∈ L, z = z ∨ ¬ samePair z.1 z.1 := fun z _ => Or.inl rfl
  have hp : L.Pairwise fun a b : (Entity × Entity) × Contacts =>
      a = b ∨ ¬ samePair a.1 b.1 := hu.imp Or.inr
  exact hp.forall_of_forall hsym hrefl hx hy

/-- Membership after a pass for the entities of a registry pair that
starts this step: the resolvable side gains the other identifier.
The pair (a, b) is the entry pair in either orientation. -/
theorem passMap_mem_of_started (m : Colliders) (L : Registry)
    (e1 e2 : Entity) (c : Contacts)
    (hu : uniquePairs L) (hmem : ((e1, e2), c) ∈ L)
    (hcur : c.during_current_frame = true) (hprev : c.during_previous_frame = false)
    (a b : Entity) (hab : (a = e1 ∧ b = e2) ∨ (a = e2 ∧ b = e1))
    (hres : resolvable m a = true) :
    memColl (passMap m L) a b = true := by
  obtain ⟨S, T, rfl⟩ := List.append_of_mem hmem
  rw [passMap_append, passMap_cons]
  unfold uniquePairs at hu
  rw [List.pairwise_append] at hu
  obtain ⟨-, huT, -⟩ := hu
  rw [List.pairwise_cons] at huT
  have hT : ∀ y ∈ T, ¬ samePair y.1 (a, b) := by
    intro y hy hsp
    apply huT.1 y hy
    apply samePair_symm
    rcases hab with ⟨rfl, rfl⟩ | ⟨rfl, rfl⟩
    · exact hsp
    · exact samePair_swap_right hsp
  rw [memColl_passMap_frame _ T a b fun y hy hsp => absurd hsp (hT y hy)]
  have hresS : resolvable (passMap m S) a = resolvable m a := resolvable_passMap m S a
  rw [memColl_applyEntry_started (passMap m S) e1 e2 c a b hcur hprev]
  rcases hab with ⟨rfl, rfl⟩ | ⟨rfl, rfl⟩ <;>
    simp [hresS, hres]

/-- Membership after a pass for the entities of a registry pair that
ends this step: the other identifier is removed from the resolvable
side, and is absent even if that side was unresolvable. -/
theorem passMap_not_mem_of_ended (m : Colliders) (L : Registry)
    (e1 e2 : Entity) (c : Contacts)
    (hu : uniquePairs L) (hmem : ((e1, e2), c) ∈ L)
    (hcur : c.during_current_frame = false) (hprev : c.during_previous_frame = true)
    (a b : Entity) (hab : (a = e1 ∧ b = e2) ∨ (a = e2 ∧ b = e1)) :
    memColl (passMap m L) a b = false := by
  obtain ⟨S, T, rfl⟩ := List.append_of_mem hmem
  rw [passMap_append, passMap_cons]
  unfold uniquePairs at hu
  rw [List.pairwise_append] at hu
  obtain ⟨-, huT, -⟩ := hu
  rw [List.pairwise_cons] at huT
  have hT : ∀ y ∈ T, ¬ samePair y.1 (a, b) := by
    intro y hy hsp
    apply huT.1 y hy
    apply samePair_symm
    rcases hab with ⟨rfl, rfl⟩ | ⟨rfl, rfl⟩
    · exact hsp
    · exact samePair_swap_right hsp
  rw [memColl_passMap_frame _ T a b fun y hy hsp => absurd hsp (hT y hy)]
  rw [memColl_applyEntry_ended (passMap m S) e1 e2 c a b hcur hprev]
  rcases hab with ⟨rfl, rfl⟩ | ⟨rfl, rfl⟩ <;> simp

/-! Event-trace lemmas: the events a pass emits for one unordered pair
are exactly the events of its unique registry entry, in entry order. -/

theorem eventTrace_cons (x : (Entity × Entity) × Contacts) (L : Registry) :
    eventTrace (x :: L) = entryEvents x ++ eventTrace L :=
  List.flatMap_cons x L entryEvents

theorem eventsForPair_append (p : Entity × Entity) (evs1 evs2 : List CollisionEvent) :
    eventsForPair p (evs1 ++ evs2) = eventsForPair p evs1 ++ eventsForPair p evs2 :=
  List.filter_append evs1 evs2

theorem eventsForPair_entryEvents (x : (Entity × Entity) × Contacts)
    (hw1 : x.2.entity1 = x.1.1) (hw2 : x.2.entity2 = x.1.2) (p : Entity × Entity) :
    eventsForPair p (entryEvents x) = if samePair x.1 p then entryEvents x else [] := by
  rcases x with ⟨⟨e1, e2⟩, c⟩
  simp only at hw1 hw2
  cases hcur : c.during_current_frame <;> cases hprev : c.during_previous_frame <;>
    by_cases hp : samePair (e1, e2) p <;>
      simp [entryEvents, eventsForPair, eventPair, hcur, hprev, hw1, hw2, hp]

theorem eventsForPair_eventTrace_nil (L : Registry) (hw : wellFormed L)
    (p : Entity × Entity) (h : ∀ x ∈ L, ¬ samePair x.1 p) :
    eventsForPair p (eventTrace L) = [] := by
  induction L with
  | nil => rfl
  | cons x L ih =>
    rw [eventTrace_cons, eventsForPair_append]
    have hwx := hw x (List.mem_cons_self x L)
    rw [eventsForPair_entryEvents x hwx.1 hwx.2 p,
      if_neg (h x (List.mem_cons_self x L))]
    rw [ih (fun y hy => hw y (List.mem_cons_of_mem x hy))
      (fun y hy => h y (List.mem_cons_of_mem x hy))]
    rfl

theorem eventsForPair_eventTrace (L : Registry) (hu : uniquePairs L) (hw : wellFormed L)
    (e1 e2 : Entity) (c : Contacts) (hmem : ((e1, e2), c) ∈ L) :
    eventsForPair (e1, e2) (eventTrace L) = entryEvents ((e1, e2), c) := by
  induction L with
  | nil => cases hmem
  | cons x L ih =>
    unfold uniquePairs at hu
    rw [List.pairwise_cons] at hu
    obtain ⟨hx, huL⟩ := hu
    have hwx := hw x (List.mem_cons_self x L)
    have hwL : wellFormed L := fun y hy => hw y (List.mem_cons_of_mem x hy)
    rw [eventTrace_cons, eventsForPair_append,
      eventsForPair_entryEvents x hwx.1 hwx.2 _]
    rcases List.mem_cons.mp hmem with heq | hmem'
    · subst heq
      rw [if_pos (samePair_refl _)]
      rw [eventsForPair_eventTrace_nil L hwL _
        (fun y hy hsp => hx y hy (samePair_symm hsp))]
      simp
    · rw [if_neg (hx _ hmem')]
      rw [ih huL hwL hmem']
      simp

/-! Commutation of per-entry mutations: entries with different unordered
pair keys can be processed in either order. -/

theorem mutateColliding_eq_some (m : Colliders) (a : Entity)
    (f : Finset Entity → Finset Entity) (s : Finset Entity)
    (h : getColliding m a = some s) :
    mutateColliding m a f = setColliding m a (f s) := by
  unfold mutateColliding
  rw [h]

theorem mutateColliding_eq_none (m : Colliders) (a : Entity)
    (f : Finset Entity → Finset Entity) (h : getColliding m a = none) :
    mutateColliding m a f = m := by
  unfold mutateColliding
  rw [h]

theorem getColliding_mutateColliding_ne (m : Colliders) (a b : Entity)
    (f : Finset Entity → Finset Entity) (h : a ≠ b) :
    getColliding (mutateColliding m b f) a = getColliding m a := by
  cases hg : getColliding m b with
  | none => rw [mutateColliding_eq_none m b f hg]
  | some s =>
    rw [mutateColliding_eq_some m b f s hg, getColliding_setColliding, if_neg h]

theorem mutateColliding_comm_same (m : Colliders) (a : Entity)
    (f g : Finset Entity → Finset Entity) (hfg : ∀ s, f (g s) = g (f s)) :
    mutateColliding (mutateColliding m a f) a g
      = mutateColliding (mutateColliding m a g) a f := by
  cases ha : getColliding m a with
  | none =>
    simp [mutateColliding_eq_none m a f ha, mutateColliding_eq_none m a g ha]
  | some s =>
    have hf : getColliding (setColliding m a (f s)) a = some (f s) := by
      rw [getColliding_setColliding, if_pos rfl, ha]
      rfl
    have hg : getColliding (setColliding m a (g s)) a = some (g s) := by
      rw [getColliding_setColliding, if_pos rfl, ha]
      rfl
    rw [mutateColliding_eq_some m a f s ha, mutateColliding_eq_some m a g s ha,
      mutateColliding_eq_some _ a g (f s) hf, mutateColliding_eq_some _ a f (g s) hg,
      setColliding_setColliding_same, setColliding_setColliding_same, hfg s]

theorem mutateColliding_comm (m : Colliders) (a b : Entity)
    (f g : Finset Entity → Finset Entity)
    (h : a ≠ b ∨ ∀ s, f (g s) = g (f s)) :
    mutateColliding (mutateColliding m a f) b g
      = mutateColliding (mutateColliding m b g) a f := by
  by_cases hab : a = b
  · subst hab
    exact mutateColliding_comm_same m a f g
      (h.resolve_left fun hh => hh rfl)
  · have hba : b ≠ a := fun hh => hab hh.symm
    cases ha : getColliding m a with
    | none =>
      rw [mutateColliding_eq_none m a f ha,
        mutateColliding_eq_none (mutateColliding m b g) a f
          (by rw [getColliding_mutateColliding_ne m a b g hab, ha])]
    | some sa =>
      cases hb : getColliding m b with
      | none =>
        rw [mutateColliding_eq_none m b g hb,
          mutateColliding_eq_none (mutateColliding m a f) b g
            (by rw [getColliding_mutateColliding_ne m b a f hba, hb])]
      | some sb =>
        rw [mutateColliding_eq_some m a f sa ha, mutateColliding_eq_some m b g sb hb,
          mutateColliding_eq_some (setColliding m a (f sa)) b g sb
            (by rw [getColliding_setColliding, if_neg hba, hb]),
          mutateColliding_eq_some (setColliding m b (g sb)) a f sa
            (by rw [getColliding_setColliding, if_neg hab, ha]),
          setColliding_setColliding_ne m hab]

theorem mutate4_comm (z : Colliders) (a1 a2 b1 b2 : Entity)
    (f1 f2 g1 g2 : Finset Entity → Finset Entity)
    (h11 : a1 ≠ b1 ∨ ∀ s, f1 (g1 s) = g1 (f1 s))
    (h12 : a1 ≠ b2 ∨ ∀ s, f1 (g2 s) = g2 (f1 s))
    (h21 : a2 ≠ b1 ∨ ∀ s, f2 (g1 s) = g1 (f2 s))
    (h22 : a2 ≠ b2 ∨ ∀ s, f2 (g2 s) = g2 (f2 s)) :
    mutateColliding (mutateColliding (mutateColliding (mutateColliding z a1 f1) a2 f2) b1 g1) b2 g2
      = mutateColliding (mutateColliding (mutateColliding (mutateColliding z b1 g1) b2 g2) a1 f1) a2 f2 := by
  calc
    mutateColliding (mutateColliding (mutateColliding (mutateColliding z a1 f1) a2 f2) b1 g1) b2 g2
        = mutateColliding (mutateColliding (mutateColliding (mutateColliding z a1 f1) b1 g1) a2 f2) b2 g2 := by
          rw [mutateColliding_comm (mutateColliding z a1 f1) a2 b1 f2 g1 h21]
    _ = mutateColliding (mutateColliding (mutateColliding (mutateColliding z b1 g1) a1 f1) a2 f2) b2 g2 := by
          rw [mutateColliding_comm z a1 b1 f1 g1 h11]
    _ = mutateColliding (mutateColliding (mutateColliding (mutateColliding z b1 g1) a1 f1) b2 g2) a2 f2 := by
          rw [mutateColliding_comm (mutateColliding (mutateColliding z b1 g1) a1 f1) a2 b2 f2 g2 h22]
    _ = mutateColliding (mutateColliding (mutateColliding (mutateColliding z b1 g1) b2 g2) a1 f1) a2 f2 := by
          rw [mutateColliding_comm (mutateColliding z b1 g1) a1 b2 f1 g2 h12]

theorem opComm_insert_erase (a b ta tb : Entity) (h : ¬ (a = b ∧ ta = tb)) :
    a ≠ b ∨ ∀ s : Finset Entity, insert ta (s.erase tb) = (insert ta s).erase tb := by
  by_cases hab : a = b
  · right
    intro s
    exact (Finset.erase_insert_of_ne fun hh => h ⟨hab, hh⟩).symm
  · left
    exact hab

theorem opComm_erase_insert (a b ta tb : Entity) (h : ¬ (a = b ∧ ta = tb)) :
    a ≠ b ∨ ∀ s : Finset Entity, (insert tb s).erase ta = insert tb (s.erase ta) := by
  by_cases hab : a = b
  · right
    intro s
    exact Finset.erase_insert_of_ne fun hh => h ⟨hab, hh.symm⟩
  · left
    exact hab

theorem applyEntry_comm (x y : (Entity × Entity) × Contacts)
    (h : x = y ∨ ¬ samePair x.1 y.1) (z : Colliders) :
    applyEntry (applyEntry z x) y = applyEntry (applyEntry z y) x := by
  rcases x with ⟨⟨x1, x2⟩, cx⟩
  rcases y with ⟨⟨y1, y2⟩, cy⟩
  have hslots : cx ≠ cy → ¬ ((x1 = y1 ∧ x2 = y2) ∨ (x1 = y2 ∧ x2 = y1)) := by
    intro hc
    have hsp : ¬ samePair (x1, x2) (y1, y2) := by
      rcases h with heq | hsp
      · cases heq
        exact absurd rfl hc
      · exact hsp
    rintro (⟨rfl, rfl⟩ | ⟨rfl, rfl⟩)
    · exact hsp (Or.inl rfl)
    · exact hsp (Or.inr rfl)
  cases hxc : cx.during_current_frame <;> cases hxp : cx.during_previous_frame <;>
    cases hyc : cy.during_current_frame <;> cases hyp : cy.during_previous_frame <;>
      simp [applyEntry, hxc, hxp, hyc, hyp, insertColliding, removeColliding]
  case false.true.false.true =>
    exact mutate4_comm z x1 x2 y1 y2 _ _ _ _
      (Or.inr fun s => Finset.erase_right_comm)
      (Or.inr fun s => Finset.erase_right_comm)
      (Or.inr fun s => Finset.erase_right_comm)
      (Or.inr fun s => Finset.erase_right_comm)
  case false.true.true.false =>
    have hc : cx ≠ cy := fun hh => by
      rw [hh] at hxc
      rw [hxc] at hyc
      cases hyc
    have hne := hslots hc
    have hne1 : ¬ (x1 = y1 ∧ x2 = y2) := fun hh => hne (Or.inl hh)
    have hne2 : ¬ (x1 = y2 ∧ x2 = y1) := fun hh => hne (Or.inr hh)
    exact mutate4_comm z x1 x2 y1 y2 _ _ _ _
      (opComm_erase_insert x1 y1 x2 y2 hne1)
      (opComm_erase_insert x1 y2 x2 y1 hne2)
      (opComm_erase_insert x2 y1 x1 y2 fun hh => hne2 ⟨hh.2, hh.1⟩)
      (opComm_erase_insert x2 y2 x1 y1 fun hh => hne1 ⟨hh.2, hh.1⟩)
  case true.false.false.true =>
    have hc : cx ≠ cy := fun hh => by
      rw [hh] at hxc
      rw [hxc] at hyc
      cases hyc
    have hne := hslots hc
    have hne1 : ¬ (x1 = y1 ∧ x2 = y2) := fun hh => hne (Or.inl hh)
    have hne2 : ¬ (x1 = y2 ∧ x2 = y1) := fun hh => hne (Or.inr hh)
    exact mutate4_comm z x1 x2 y1 y2 _ _ _ _
      (opComm_insert_erase x1 y1 x2 y2 hne1)
      (opComm_insert_erase x1 y2 x2 y1 hne2)
      (opComm_insert_erase x2 y1 x1 y2 fun hh => hne2 ⟨hh.2, hh.1⟩)
      (opComm_insert_erase x2 y2 x1 y1 fun hh => hne1 ⟨hh.2, hh.1⟩)
  case true.false.true.false =>
    exact mutate4_comm z x1 x2 y1 y2 _ _ _ _
      (Or.inr fun s => Finset.Insert.comm _ _ s)
      (Or.inr fun s => Finset.Insert.comm _ _ s)
      (Or.inr fun s => Finset.Insert.comm _ _ s)
      (Or.inr fun s => Finset.Insert.comm _ _ s)

theorem passMap_perm (m : Colliders) {L1 L2 : Registry}
    (hu : uniquePairs L1) (hp : L1.Perm L2) :
    passMap m L1 = passMap m L2 :=
  List.Perm.foldl_eq' hp
    (fun x hx y hy z => applyEntry_comm x y (uniquePairs_all L1 hu hx hy) z) m

theorem eventTrace_perm {L1 L2 : Registry} (hp : L1.Perm L2) :
    (eventTrace L1).Perm (eventTrace L2) :=
  List.Perm.flatMap_right entryEvents hp

/-! Final helpers shared by several claims. -/

theorem report_contacts_fst (m : Colliders) (L : Registry) :
    (report_contacts m L).1 = passMap m L := by
  rw [report_contacts_eq]

theorem report_contacts_snd (m : Colliders) (L : Registry) :
    (report_contacts m L).2 = eventTrace L := by
  rw [report_contacts_eq]

theorem memColl_passMap_same_flags (m : Colliders) (L : Registry)
    (e1 e2 : Entity) (c : Contacts) (hu : uniquePairs L) (hmem : ((e1, e2), c) ∈ L)
    (hflags : c.during_current_frame = c.during_previous_frame) :
    memColl (passMap m L) e1 e2 = memColl m e1 e2 ∧
    memColl (passMap m L) e2 e1 = memColl m e2 e1 := by
  have hx : ∀ x ∈ L, samePair x.1 (e1, e2) →
      x.2.during_current_frame = x.2.during_previous_frame := by
    intro x hxL hsp
    rcases uniquePairs_all L hu hxL hmem with rfl | hns
    · exact hflags
    · exact absurd hsp hns
  exact ⟨memColl_passMap_frame m L e1 e2 hx,
    memColl_passMap_frame m L e2 e1 fun x hxL hsp => hx x hxL (samePair_swap_right hsp)⟩

theorem passMap_all_noop (m : Colliders) (L : Registry)
    (h : ∀ x ∈ L, x.2.during_current_frame = false ∧ x.2.during_previous_frame = false) :
    passMap m L = m := by
  induction L generalizing m with
  | nil => rfl
  | cons x L ih =>
    rw [passMap_cons, applyEntry_of_eq_flags m x (by
      obtain ⟨h1, h2⟩ := h x (List.mem_cons_self x L)
      rw [h1, h2])]
    exact ih m fun y hy => h y (List.mem_cons_of_mem x hy)

theorem eventTrace_all_noop (L : Registry)
    (h : ∀ x ∈ L, x.2.during_current_frame = false ∧ x.2.during_previous_frame = false) :
    eventTrace L = [] := by
  induction L with
  | nil => rfl
  | cons x L ih =>
    obtain ⟨h1, h2⟩ := h x (List.mem_cons_self x L)
    rw [eventTrace_cons, ih fun y hy => h y (List.mem_cons_of_mem x hy)]
    simp [entryEvents, h1, h2]

/-! The claims. -/

/-- C1: for every registry pair with during_previous_frame false and
during_current_frame true, one pass emits exactly one ongoing Collision
notification and exactly one CollisionStarted notification for that
pair, and, when both entities are resolvable, afterwards the
CollidingEntities set of entity1 contains entity2 and the set of
entity2 contains entity1. -/
theorem started_pair_correct (m : Colliders) (L : Registry)
    (hu : uniquePairs L) (hw : wellFormed L)
    (e1 e2 : Entity) (c : Contacts) (hmem : ((e1, e2), c) ∈ L)
    (hprev : c.during_previous_frame = false) (hcur : c.during_current_frame = true) :
    countOngoing (e1, e2) (report_contacts m L).2 = 1 ∧
    countStarted (e1, e2) (report_contacts m L).2 = 1 ∧
    (resolvable m e1 = true → resolvable m e2 = true →
      memColl (report_contacts m L).1 e1 e2 = true ∧
      memColl (report_contacts m L).1 e2 e1 = true) := by
  rw [report_contacts_fst, report_contacts_snd]
  refine ⟨?_, ?_, fun h1 h2 => ?_⟩
  · unfold countOngoing
    rw [eventsForPair_eventTrace L hu hw e1 e2 c hmem]
    simp [entryEvents, hcur, hprev, isOngoingEvent]
  · unfold countStarted
    rw [eventsForPair_eventTrace L hu hw e1 e2 c hmem]
    simp [entryEvents, hcur, hprev, isStartedEvent]
  · exact ⟨passMap_mem_of_started m L e1 e2 c hu hmem hcur hprev e1 e2
        (Or.inl ⟨rfl, rfl⟩) h1,
      passMap_mem_of_started m L e1 e2 c hu hmem hcur hprev e2 e1
        (Or.inr ⟨rfl, rfl⟩) h2⟩

theorem started_pair_correct_witness :
    countOngoing (1, 2)
      (report_contacts [(1, ∅), (2, ∅)] [((1, 2), ⟨1, 2, true, false, 0⟩)]).2 = 1 ∧
    countStarted (1, 2)
      (report_contacts [(1, ∅), (2, ∅)] [((1, 2), ⟨1, 2, true, false, 0⟩)]).2 = 1 ∧
    (resolvable [(1, ∅), (2, ∅)] 1 = true → resolvable [(1, ∅), (2, ∅)] 2 = true →
      memColl (report_contacts [(1, ∅), (2, ∅)] [((1, 2), ⟨1, 2, true, false, 0⟩)]).1 1 2
        = true ∧
      memColl (report_contacts [(1, ∅), (2, ∅)] [((1, 2), ⟨1, 2, true, false, 0⟩)]).1 2 1
        = true) :=
  started_pair_correct [(1, ∅), (2, ∅)] [((1, 2), ⟨1, 2, true, false, 0⟩)]
    (by decide) (by decide) 1 2 ⟨1, 2, true, false, 0⟩ (by decide) rfl rfl

/-- C2: for every registry pair with during_previous_frame true and
during_current_frame true, one pass emits exactly one ongoing Collision
notification and no CollisionStarted or CollisionEnded notification for
that pair, and the CollidingEntities membership of the two entities in
each other is unchanged. -/
theorem continuing_pair_correct (m : Colliders) (L : Registry)
    (hu : uniquePairs L) (hw : wellFormed L)
    (e1 e2 : Entity) (c : Contacts) (hmem : ((e1, e2), c) ∈ L)
    (hprev : c.during_previous_frame = true) (hcur : c.during_current_frame = true) :
    countOngoing (e1, e2) (report_contacts m L).2 = 1 ∧
    countStarted (e1, e2) (report_contacts m L).2 = 0 ∧
    countEnded (e1, e2) (report_contacts m L).2 = 0 ∧
    memColl (report_contacts m L).1 e1 e2 = memColl m e1 e2 ∧
    memColl (report_contacts m L).1 e2 e1 = memColl m e2 e1 := by
  rw [report_contacts_fst, report_contacts_snd]
  have hsets := memColl_passMap_same_flags m L e1 e2 c hu hmem (hcur.trans hprev.symm)
  refine ⟨?_, ?_, ?_, hsets.1, hsets.2⟩
  · unfold countOngoing
    rw [eventsForPair_eventTrace L hu hw e1 e2 c hmem]
    simp [entryEvents, hcur, hprev, isOngoingEvent]
  · unfold countStarted
    rw [eventsForPair_eventTrace L hu hw e1 e2 c hmem]
    simp [entryEvents, hcur, hprev, isStartedEvent]
  · unfold countEnded
    rw [eventsForPair_eventTrace L hu hw e1 e2 c hmem]
    simp [entryEvents, hcur, hprev, isEndedEvent]

theorem continuing_pair_correct_witness :
    countOngoing (1, 2)
      (report_contacts [(1, {2}), (2, {1})] [((1, 2), ⟨1, 2, true, true, 0⟩)]).2 = 1 ∧
    countStarted (1, 2)
      (report_contacts [(1, {2}), (2, {1})] [((1, 2), ⟨1, 2, true, true, 0⟩)]).2 = 0 ∧
    countEnded (1, 2)
      (report_contacts [(1, {2}), (2, {1})] [((1, 2), ⟨1, 2, true, true, 0⟩)]).2 = 0 ∧
    memColl (report_contacts [(1, {2}), (2, {1})] [((1, 2), ⟨1, 2, true, true, 0⟩)]).1 1 2
      = memColl [(1, {2}), (2, {1})] 1 2 ∧
    memColl (report_contacts [(1, {2}), (2, {1})] [((1, 2), ⟨1, 2, true, true, 0⟩)]).1 2 1
      = memColl [(1, {2}), (2, {1})] 2 1 :=
  continuing_pair_correct [(1, {2}), (2, {1})] [((1, 2), ⟨1, 2, true, true, 0⟩)]
    (by decide) (by decide) 1 2 ⟨1, 2, true, true, 0⟩ (by decide) rfl rfl

/-- C3: for every registry pair with during_previous_frame true and
during_current_frame false, one pass emits exactly one CollisionEnded
notification and no ongoing Collision notification for that pair, and,
when both entities are resolvable, afterwards neither CollidingEntities
set contains the other entity. -/
theorem ended_pair_correct (m : Colliders) (L : Registry)
    (hu : uniquePairs L) (hw : wellFormed L)
    (e1 e2 : Entity) (c : Contacts) (hmem : ((e1, e2), c) ∈ L)
    (hprev : c.during_previous_frame = true) (hcur : c.during_current_frame = false) :
    countEnded (e1, e2) (report_contacts m L).2 = 1 ∧
    countOngoing (e1, e2) (report_contacts m L).2 = 0 ∧
    (resolvable m e1 = true → resolvable m e2 = true →
      memColl (report_contacts m L).1 e1 e2 = false ∧
      memColl (report_contacts m L).1 e2 e1 = false) := by
  rw [report_contacts_fst, report_contacts_snd]
  refine ⟨?_, ?_, fun h1 h2 => ?_⟩
  · unfold countEnded
    rw [eventsForPair_eventTrace L hu hw e1 e2 c hmem]
    simp [entryEvents, hcur, hprev, isEndedEvent]
  · unfold countOngoing
    rw [eventsForPair_eventTrace L hu hw e1 e2 c hmem]
    simp [entryEvents, hcur, hprev, isOngoingEvent]
  · exact ⟨passMap_not_mem_of_ended m L e1 e2 c hu hmem hcur hprev e1 e2
        (Or.inl ⟨rfl, rfl⟩),
      passMap_not_mem_of_ended m L e1 e2 c hu hmem hcur hprev e2 e1
        (Or.inr ⟨rfl, rfl⟩)⟩

theorem ended_pair_correct_witness :
    countEnded (1, 2)
      (report_contacts [(1, {2}), (2, {1})] [((1, 2), ⟨1, 2, false, true, 0⟩)]).2 = 1 ∧
    countOngoing (1, 2)
      (report_contacts [(1, {2}), (2, {1})] [((1, 2), ⟨1, 2, false, true, 0⟩)]).2 = 0 ∧
    (resolvable [(1, {2}), (2, {1})] 1 = true → resolvable [(1, {2}), (2, {1})] 2 = true →
      memColl (report_contacts [(1, {2}), (2, {1})] [((1, 2), ⟨1, 2, false, true, 0⟩)]).1 1 2
        = false ∧
      memColl (report_contacts [(1, {2}), (2, {1})] [((1, 2), ⟨1, 2, false, true, 0⟩)]).1 2 1
        = false) :=
  ended_pair_correct [(1, {2}), (2, {1})] [((1, 2), ⟨1, 2, false, true, 0⟩)]
    (by decide) (by decide) 1 2 ⟨1, 2, false, true, 0⟩ (by decide) rfl rfl

/-- C4 counterexample: a pair already active in the previous frame
(during_previous_frame true, during_current_frame true) whose two
entities are resolvable but whose CollidingEntities sets start empty:
after the pass the set of entity 1 still does not contain entity 2, so
the invariant does not hold regardless of the set contents before the
pass. -/
theorem current_pair_invariant_counterexample :
    uniquePairs [((1, 2), ⟨1, 2, true, true, 0⟩)] ∧
    resolvable [(1, (∅ : Finset Entity)), (2, ∅)] 1 = true ∧
    resolvable [(1, (∅ : Finset Entity)), (2, ∅)] 2 = true ∧
    (⟨1, 2, true, true, 0⟩ : Contacts).during_current_frame = true ∧
    memColl (report_contacts [(1, (∅ : Finset Entity)), (2, ∅)]
      [((1, 2), ⟨1, 2, true, true, 0⟩)]).1 1 2 = false := by
  decide

/-- C4 amended: immediately after a pass, every registry pair with
during_current_frame true whose entities are both resolvable has each
entity in the CollidingEntities set of the other, provided that for
pairs that were already active in the previous frame the two sets
already contained each other before the pass (for freshly started pairs
no precondition is needed). -/
theorem current_pair_invariant (m : Colliders) (L : Registry)
    (hu : uniquePairs L)
    (e1 e2 : Entity) (c : Contacts) (hmem : ((e1, e2), c) ∈ L)
    (hcur : c.during_current_frame = true)
    (hres1 : resolvable m e1 = true) (hres2 : resolvable m e2 = true)
    (hpre : c.during_previous_frame = true →
      memColl m e1 e2 = true ∧ memColl m e2 e1 = true) :
    memColl (report_contacts m L).1 e1 e2 = true ∧
    memColl (report_contacts m L).1 e2 e1 = true := by
  rw [report_contacts_fst]
  cases hprev : c.during_previous_frame
  · exact ⟨passMap_mem_of_started m L e1 e2 c hu hmem hcur hprev e1 e2
        (Or.inl ⟨rfl, rfl⟩) hres1,
      passMap_mem_of_started m L e1 e2 c hu hmem hcur hprev e2 e1
        (Or.inr ⟨rfl, rfl⟩) hres2⟩
  · obtain ⟨h1, h2⟩ := hpre hprev
    have hsets := memColl_passMap_same_flags m L e1 e2 c hu hmem (hcur.trans hprev.symm)
    exact ⟨hsets.1.trans h1, hsets.2.trans h2⟩

theorem current_pair_invariant_witness :
    memColl (report_contacts [(1, (∅ : Finset Entity)), (2, ∅)]
      [((1, 2), ⟨1, 2, true, false, 0⟩)]).1 1 2 = true ∧
    memColl (report_contacts [(1, (∅ : Finset Entity)), (2, ∅)]
      [((1, 2), ⟨1, 2, true, false, 0⟩)]).1 2 1 = true :=
  current_pair_invariant [(1, (∅ : Finset Entity)), (2, ∅)]
    [((1, 2), ⟨1, 2, true, false, 0⟩)] (by decide) 1 2 ⟨1, 2, true, false, 0⟩
    (by decide) rfl (by decide) (by decide) (by decide)

/-- C5: when one entity of a Started or Ended pair is unresolvable while
the other is resolvable, the notification is still emitted, the
resolvable side still gains (Started) or loses (Ended) the other
identifier, the unresolvable side still has no CollidingEntities entry
afterwards (its mutation is silently skipped), and the pass is a total
function, so no error is raised or escalated. The entity a is the
resolvable one and b the unresolvable one, in either orientation of the
entry pair. -/
theorem best_effort_resilience (m : Colliders) (L : Registry)
    (hu : uniquePairs L) (hw : wellFormed L)
    (e1 e2 : Entity) (c : Contacts) (hmem : ((e1, e2), c) ∈ L)
    (a b : Entity) (hab : (a = e1 ∧ b = e2) ∨ (a = e2 ∧ b = e1))
    (hres : resolvable m a = true) (hunres : resolvable m b = false) :
    (c.during_previous_frame = false → c.during_current_frame = true →
      countStarted (e1, e2) (report_contacts m L).2 = 1 ∧
      memColl (report_contacts m L).1 a b = true) ∧
    (c.during_previous_frame = true → c.during_current_frame = false →
      countEnded (e1, e2) (report_contacts m L).2 = 1 ∧
      memColl (report_contacts m L).1 a b = false) ∧
    getColliding (report_contacts m L).1 b = none := by
  rw [report_contacts_fst, report_contacts_snd]
  refine ⟨fun hprev hcur => ⟨?_, ?_⟩, fun hprev hcur => ⟨?_, ?_⟩, ?_⟩
  · unfold countStarted
    rw [eventsForPair_eventTrace L hu hw e1 e2 c hmem]
    simp [entryEvents, hcur, hprev, isStartedEvent]
  · exact passMap_mem_of_started m L e1 e2 c hu hmem hcur hprev a b hab hres
  · unfold countEnded
    rw [eventsForPair_eventTrace L hu hw e1 e2 c hmem]
    simp [entryEvents, hcur, hprev, isEndedEvent]
  · exact passMap_not_mem_of_ended m L e1 e2 c hu hmem hcur hprev a b hab
  · have h := resolvable_passMap m L b
    rw [hunres] at h
    unfold resolvable at h
    exact Option.not_isSome_iff_eq_none.mp (by rw [h]; exact Bool.false_ne_true)

theorem best_effort_resilience_witness :
    ((⟨1, 2, true, false, 0⟩ : Contacts).during_previous_frame = false →
      (⟨1, 2, true, false, 0⟩ : Contacts).during_current_frame = true →
      countStarted (1, 2)
        (report_contacts [(1, (∅ : Finset Entity))]
          [((1, 2), ⟨1, 2, true, false, 0⟩)]).2 = 1 ∧
      memColl (report_contacts [(1, (∅ : Finset Entity))]
        [((1, 2), ⟨1, 2, true, false, 0⟩)]).1 1 2 = true) ∧
    ((⟨1, 2, true, false, 0⟩ : Contacts).during_previous_frame = true →
      (⟨1, 2, true, false, 0⟩ : Contacts).during_current_frame = false →
      countEnded (1, 2)
        (report_contacts [(1, (∅ : Finset Entity))]
          [((1, 2), ⟨1, 2, true, false, 0⟩)]).2 = 1 ∧
      memColl (report_contacts [(1, (∅ : Finset Entity))]
        [((1, 2), ⟨1, 2, true, false, 0⟩)]).1 1 2 = false) ∧
    getColliding (report_contacts [(1, (∅ : Finset Entity))]
      [((1, 2), ⟨1, 2, true, false, 0⟩)]).1 2 = none :=
  best_effort_resilience [(1, (∅ : Finset Entity))] [((1, 2), ⟨1, 2, true, false, 0⟩)]
    (by decide) (by decide) 1 2 ⟨1, 2, true, false, 0⟩ (by decide) 1 2 (by decide)
    (by decide) (by decide)

/-- C6: two registries holding the same entries in different iteration
orders produce the same final colliders store and, for each of the
three notification kinds, the same multiset of notifications
(permutation of the emitted lists). -/
theorem pass_order_independent (m : Colliders) (L1 L2 : Registry)
    (hu : uniquePairs L1) (hp : L1.Perm L2) :
    (report_contacts m L1).1 = (report_contacts m L2).1 ∧
    ((report_contacts m L1).2.filter isOngoingEvent).Perm
      ((report_contacts m L2).2.filter isOngoingEvent) ∧
    ((report_contacts m L1).2.filter isStartedEvent).Perm
      ((report_contacts m L2).2.filter isStartedEvent) ∧
    ((report_contacts m L1).2.filter isEndedEvent).Perm
      ((report_contacts m L2).2.filter isEndedEvent) := by
  rw [report_contacts_fst, report_contacts_fst, report_contacts_snd, report_contacts_snd]
  exact ⟨passMap_perm m hu hp, (eventTrace_perm hp).filter _,
    (eventTrace_perm hp).filter _, (eventTrace_perm hp).filter _⟩

theorem pass_order_independent_witness :
    (report_contacts [(1, (∅ : Finset Entity)), (3, {4})]
        [((1, 2), ⟨1, 2, true, false, 0⟩), ((3, 4), ⟨3, 4, false, true, 0⟩)]).1 =
      (report_contacts [(1, (∅ : Finset Entity)), (3, {4})]
        [((3, 4), ⟨3, 4, false, true, 0⟩), ((1, 2), ⟨1, 2, true, false, 0⟩)]).1 ∧
    ((report_contacts [(1, (∅ : Finset Entity)), (3, {4})]
        [((1, 2), ⟨1, 2, true, false, 0⟩), ((3, 4), ⟨3, 4, false, true, 0⟩)]).2.filter
          isOngoingEvent).Perm
      ((report_contacts [(1, (∅ : Finset Entity)), (3, {4})]
        [((3, 4), ⟨3, 4, false, true, 0⟩), ((1, 2), ⟨1, 2, true, false, 0⟩)]).2.filter
          isOngoingEvent) ∧
    ((report_contacts [(1, (∅ : Finset Entity)), (3, {4})]
        [((1, 2), ⟨1, 2, true, false, 0⟩), ((3, 4), ⟨3, 4, false, true, 0⟩)]).2.filter
          isStartedEvent).Perm
      ((report_contacts [(1, (∅ : Finset Entity)), (3, {4})]
        [((3, 4), ⟨3, 4, false, true, 0⟩), ((1, 2), ⟨1, 2, true, false, 0⟩)]).2.filter
          isStartedEvent) ∧
    ((report_contacts [(1, (∅ : Finset Entity)), (3, {4})]
        [((1, 2), ⟨1, 2, true, false, 0⟩), ((3, 4), ⟨3, 4, false, true, 0⟩)]).2.filter
          isEndedEvent).Perm
      ((report_contacts [(1, (∅ : Finset Entity)), (3, {4})]
        [((3, 4), ⟨3, 4, false, true, 0⟩), ((1, 2), ⟨1, 2, true, false, 0⟩)]).2.filter
          isEndedEvent) :=
  pass_order_independent [(1, (∅ : Finset Entity)), (3, {4})]
    [((1, 2), ⟨1, 2, true, false, 0⟩), ((3, 4), ⟨3, 4, false, true, 0⟩)]
    [((3, 4), ⟨3, 4, false, true, 0⟩), ((1, 2), ⟨1, 2, true, false, 0⟩)]
    (by decide) (List.Perm.swap _ _ _)

/-- C7: a registry entry with both flags false is a complete no-op: no
notification of any kind is emitted for that pair and the
CollidingEntities membership of its entities in each other is
unchanged; moreover a registry containing only such entries returns the
colliders store untouched and an empty event list. -/
theorem noop_pair_silent (m : Colliders) (L : Registry)
    (hu : uniquePairs L) (hw : wellFormed L)
    (e1 e2 : Entity) (c : Contacts) (hmem : ((e1, e2), c) ∈ L)
    (hprev : c.during_previous_frame = false) (hcur : c.during_current_frame = false) :
    countOngoing (e1, e2) (report_contacts m L).2 = 0 ∧
    countStarted (e1, e2) (report_contacts m L).2 = 0 ∧
    countEnded (e1, e2) (report_contacts m L).2 = 0 ∧
    memColl (report_contacts m L).1 e1 e2 = memColl m e1 e2 ∧
    memColl (report_contacts m L).1 e2 e1 = memColl m e2 e1 ∧
    ∀ m' : Colliders, ∀ L' : Registry,
      (∀ x ∈ L', x.2.during_current_frame = false ∧ x.2.during_previous_frame = false) →
      report_contacts m' L' = (m', []) := by
  rw [report_contacts_fst, report_contacts_snd]
  have hsets := memColl_passMap_same_flags m L e1 e2 c hu hmem (hcur.trans hprev.symm)
  refine ⟨?_, ?_, ?_, hsets.1, hsets.2, fun m' L' hall => ?_⟩
  · unfold countOngoing
    rw [eventsForPair_eventTrace L hu hw e1 e2 c hmem]
    simp [entryEvents, hcur, hprev]
  · unfold countStarted
    rw [eventsForPair_eventTrace L hu hw e1 e2 c hmem]
    simp [entryEvents, hcur, hprev]
  · unfold countEnded
    rw [eventsForPair_eventTrace L hu hw e1 e2 c hmem]
    simp [entryEvents, hcur, hprev]
  · rw [report_contacts_eq, passMap_all_noop m' L' hall, eventTrace_all_noop L' hall]

theorem noop_pair_silent_witness :
    countOngoing (1, 2)
      (report_contacts [(1, {2})] [((1, 2), ⟨1, 2, false, false, 0⟩)]).2 = 0 ∧
    countStarted (1, 2)
      (report_contacts [(1, {2})] [((1, 2), ⟨1, 2, false, false, 0⟩)]).2 = 0 ∧
    countEnded (1, 2)
      (report_contacts [(1, {2})] [((1, 2), ⟨1, 2, false, false, 0⟩)]).2 = 0 ∧
    memColl (report_contacts [(1, {2})] [((1, 2), ⟨1, 2, false, false, 0⟩)]).1 1 2
      = memColl [(1, {2})] 1 2 ∧
    memColl (report_contacts [(1, {2})] [((1, 2), ⟨1, 2, false, false, 0⟩)]).1 2 1
      = memColl [(1, {2})] 2 1 ∧
    ∀ m' : Colliders, ∀ L' : Registry,
      (∀ x ∈ L', x.2.during_current_frame = false ∧ x.2.during_previous_frame = false) →
      report_contacts m' L' = (m', []) :=
  noop_pair_silent [(1, {2})] [((1, 2), ⟨1, 2, false, false, 0⟩)]
    (by decide) (by decide) 1 2 ⟨1, 2, false, false, 0⟩ (by decide) rfl rfl

/-- C8: within one pass the notifications emitted for a given pair are,
in emission order, exactly the ongoing Collision followed by
CollisionStarted for a started pair, and exactly CollisionEnded alone
for an ended pair; in particular CollisionStarted is never emitted
before the ongoing Collision of its pair. -/
theorem per_pair_event_order (m : Colliders) (L : Registry)
    (hu : uniquePairs L) (hw : wellFormed L)
    (e1 e2 : Entity) (c : Contacts) (hmem : ((e1, e2), c) ∈ L) :
    (c.during_previous_frame = false → c.during_current_frame = true →
      eventsForPair (e1, e2) (report_contacts m L).2 =
        [CollisionEvent.collision c, CollisionEvent.started e1 e2]) ∧
    (c.during_previous_frame = true → c.during_current_frame = false →
      eventsForPair (e1, e2) (report_contacts m L).2 =
        [CollisionEvent.ended e1 e2]) := by
  rw [report_contacts_snd]
  constructor <;> intro hprev hcur <;>
    rw [eventsForPair_eventTrace L hu hw e1 e2 c hmem] <;>
      simp [entryEvents, hcur, hprev]

theorem per_pair_event_order_witness :
    ((⟨1, 2, true, false, 0⟩ : Contacts).during_previous_frame = false →
      (⟨1, 2, true, false, 0⟩ : Contacts).during_current_frame = true →
      eventsForPair (1, 2)
        (report_contacts [] [((1, 2), ⟨1, 2, true, false, 0⟩)]).2 =
        [CollisionEvent.collision ⟨1, 2, true, false, 0⟩, CollisionEvent.started 1 2]) ∧
    ((⟨1, 2, true, false, 0⟩ : Contacts).during_previous_frame = true →
      (⟨1, 2, true, false, 0⟩ : Contacts).during_current_frame = false →
      eventsForPair (1, 2)
        (report_contacts [] [((1, 2), ⟨1, 2, true, false, 0⟩)]).2 =
        [CollisionEvent.ended 1 2]) :=
  per_pair_event_order [] [((1, 2), ⟨1, 2, true, false, 0⟩)]
    (by decide) (by decide) 1 2 ⟨1, 2, true, false, 0⟩ (by decide)

/-- C9: every invocation of the pass writes the elapsed duration into
the diagnostics timing slot exactly once, unconditionally, for every
registry including the empty one, and the resulting slot value is the
new duration independently of the previous diagnostics contents
(overwrite, not accumulation); durations are natural numbers, hence
non-negative. -/
theorem timing_always_written (m : Colliders) (L : Registry)
    (d : CollisionDiagnostics) (elapsed : Nat) :
    (report_contacts_timed m L d elapsed).diagnostic_writes = [elapsed] ∧
    (report_contacts_timed m L d elapsed).diagnostics.collision_events = elapsed ∧
    ∀ d' : CollisionDiagnostics,
      (report_contacts_timed m L d' elapsed).diagnostics =
        (report_contacts_timed m L d elapsed).diagnostics :=
  ⟨rfl, rfl, fun _ => rfl⟩

/-- C10: the CollidingEntities membership of one entity in the set of
another is unchanged by a pass whenever no registry entry keyed by that
unordered pair has a Started or Ended transition; resolvability of
every entity is unchanged, and the whole CollidingEntities entry of an
entity appearing in no registry key is unchanged. The registry itself
is read-only input to the pass by construction. -/
theorem pass_frame_condition (m : Colliders) (L : Registry) :
    (∀ e t : Entity,
      (∀ x ∈ L, samePair x.1 (e, t) →
        x.2.during_current_frame = x.2.during_previous_frame) →
      memColl (report_contacts m L).1 e t = memColl m e t) ∧
    (∀ e : Entity, resolvable (report_contacts m L).1 e = resolvable m e) ∧
    (∀ e : Entity, (∀ x ∈ L, e ≠ x.1.1 ∧ e ≠ x.1.2) →
      getColliding (report_contacts m L).1 e = getColliding m e) := by
  rw [report_contacts_fst]
  exact ⟨fun e t h => memColl_passMap_frame m L e t h,
    fun e => resolvable_passMap m L e,
    fun e h => getColliding_passMap_absent m L e h⟩

theorem pass_frame_condition_witness :
    memColl (report_contacts [(5, {6}), (6, {5})]
      [((1, 2), ⟨1, 2, true, false, 0⟩)]).1 5 6 = memColl [(5, {6}), (6, {5})] 5 6 :=
  (pass_frame_condition [(5, {6}), (6, {5})] [((1, 2), ⟨1, 2, true, false, 0⟩)]).1
    5 6 (by decide)

end ContactReporting
